import Mathlib

/-!
Shallow embedding of the `kubernetes-resource-app` controller
(`src/main.rs`, with `src/scheduling.rs` for the scheduling config type).

The Rust program defines a Kubernetes custom resource `MyApp`, an admission
pipeline (validating and mutating webhooks over `MyApp` objects), and a
reconciliation engine that manages a finalizer, two child resources
(a Deployment and a Service), and a status subresource.

We embed the pure content of each function: webhooks become functions from
the admission object to a verdict / patch list, and the reconcile loop
becomes a function on an explicit store state holding the parent object and
its (at most one each, deterministically named) child resources.
-/

/-! ## Data model (`MyAppSpec`, `MyAppStatus`, `Condition`, metadata) -/

/-- Rust struct `ResourceRequirements` (cpu, memory) from main.rs. -/
structure ResourceRequirements where
  cpu : String
  memory : String
deriving DecidableEq, Repr

/-- Rust struct `SchedulingConfig` from scheduling.rs (carried by the spec,
never read by the reconcile path). -/
structure SchedulingConfig where
  nodeSelector : List (String × String)
  priorityClass : Option String
  schedulerName : Option String
deriving DecidableEq, Repr

/-- Rust struct `MyAppSpec` from main.rs. `replicas` is a Rust `i32`; its arithmetic in
`validate` never overflows for the bounds checked, so we use `Int`.
`env_vars` is a `BTreeMap<String,String>`, embedded as an association list. -/
structure MyAppSpec where
  replicas : Int
  image : String
  envVars : List (String × String)
  resources : Option ResourceRequirements
  scheduling : Option SchedulingConfig
deriving DecidableEq, Repr

/-- Rust struct `Condition` from main.rs. -/
structure Condition where
  type : String
  status : String
  reason : String
  message : String
  lastTransitionTime : String
deriving DecidableEq, Repr

/-- Rust struct `MyAppStatus` from main.rs. -/
structure MyAppStatus where
  state : String
  observedGeneration : Option Int
  conditions : List Condition
  lastUpdated : Option String
deriving DecidableEq, Repr

/-- The slice of Kubernetes `ObjectMeta` the program reads or writes:
name, namespace, uid, generation, deletionTimestamp, finalizers, labels.
`labels = none` means the serialized metadata carries no `labels` key at all
(k8s_openapi skips `None` fields when serializing). -/
structure ObjectMeta where
  name : String
  ns : String
  uid : String
  generation : Option Int
  deletionTimestamp : Option String
  finalizers : List String
  labels : Option (List (String × String))
deriving DecidableEq, Repr

/-- The `MyApp` custom resource: metadata + spec + optional status. -/
structure MyApp where
  metadata : ObjectMeta
  spec : MyAppSpec
  status : Option MyAppStatus
deriving DecidableEq, Repr

/-! ## Local validation (`MyApp::validate`, main.rs lines 89-99) -/

/-- Function `MyApp::validate`: replicas within [1,100], image non-empty; the
first failing check wins and yields its reason string. Rust's boolean `||`
is the disjunction, and `String::is_empty` is equality with the empty
string. -/
def MyApp.validate (a : MyApp) : Except String Unit :=
  if a.spec.replicas < 1 ∨ a.spec.replicas > 100 then
    Except.error "replicas must be between 1 and 100"
  else if a.spec.image = "" then
    Except.error "image cannot be empty"
  else
    Except.ok ()

/-- Constructor helper `Condition::ready` (main.rs lines 112-120); the Rust
reads the clock, so the timestamp is an explicit parameter here. -/
def Condition.ready (status : Bool) (reason message now : String) : Condition :=
  { type := "Ready"
    status := if status then "True" else "False"
    reason := reason
    message := message
    lastTransitionTime := now }

/-! ## Validating webhook (`validate_webhook`, main.rs lines 330-371)

The webhook unwraps the admission review; claims quantify over the admission
object itself, so the embedding takes the `MyApp` and returns the verdict. -/

/-- Rust `str::contains(pat)` for a literal pattern: substring containment,
over the character lists. -/
def containsSlice (pat : List Char) : List Char → Bool
  | [] => pat.isEmpty
  | c :: rest => pat.isPrefixOf (c :: rest) || containsSlice pat rest

/-- Rust `s.contains(pat)`: `pat` occurs as a contiguous substring of `s`. -/
def strContains (s pat : String) : Bool :=
  containsSlice pat.data s.data

/-- Admission verdict: `AdmissionResponse::from(&req)` (allowed) or
`AdmissionResponse::invalid(reason)` (denied). -/
inductive AdmissionVerdict where
  | allowed
  | denied (reason : String)
deriving DecidableEq, Repr

/-- Function `validate_webhook` on an admission object: run `MyApp::validate`, then the
additional check `myapp.spec.image.contains("latest")`. Note the code tests
substring containment on the whole image string, not the tag component. -/
def validate_webhook (a : MyApp) : AdmissionVerdict :=
  match a.validate with
  | Except.ok _ =>
      if strContains a.spec.image "latest" then
        AdmissionVerdict.denied "Image tag \x27latest\x27 is not allowed"
      else
        AdmissionVerdict.allowed
  | Except.error e => AdmissionVerdict.denied e

/-! ## Mutating webhook (`mutate_webhook`, main.rs lines 374-420) -/

/-- A minimal JSON value type for patch payloads. -/
inductive Json where
  | str (s : String)
  | obj (fields : List (String × Json))

/-- RFC 6902 patch operations. The code only ever constructs `add`, but the
other constructors exist so "consists only of add operations" is a real
statement about the produced list. -/
inductive PatchOperation where
  | add (path : String) (value : Json)
  | remove (path : String)
  | replace (path : String) (value : Json)

/-- Whether a patch operation is an `add`. -/
def PatchOperation.isAdd : PatchOperation → Bool
  | PatchOperation.add _ _ => true
  | _ => false

/-- The label patch operation the mutating webhook always pushes. -/
def managedByLabelOp : PatchOperation :=
  PatchOperation.add "/metadata/labels/app.kubernetes.io~1managed-by"
    (Json.str "myapp-controller")

/-- The default-resources patch operation (cpu="100m", memory="128Mi"). -/
def defaultResourcesOp : PatchOperation :=
  PatchOperation.add "/spec/resources"
    (Json.obj [("cpu", Json.str "100m"), ("memory", Json.str "128Mi")])

/-- Function `mutate_webhook` on an admission object: start from the empty patch list,
push the managed-by label op, and push the default resources op exactly when
`myapp.spec.resources.is_none()`. -/
def mutate_webhook (a : MyApp) : List PatchOperation :=
  let patches := [managedByLabelOp]
  if a.spec.resources.isNone then
    patches ++ [defaultResourcesOp]
  else
    patches

/-! ## RFC 6902 `add` application (for claim C10)

The mutating webhook emits an `add` at
`/metadata/labels/app.kubernetes.io~1managed-by`. Per RFC 6902 the target
location's parent container must already exist for `add` to succeed. We
model the serialized object (k8s_openapi skips `None` optional fields, so a
missing labels map means no `labels` key in the JSON) and the pointer
semantics of `add`. -/

/-- Replace `key`'s binding, or append it, in a JSON object's field list. -/
def setField (fields : List (String × Json)) (key : String) (v : Json) :
    List (String × Json) :=
  if fields.any (fun f => f.1 == key) then
    fields.map (fun f => if f.1 == key then (key, v) else f)
  else
    fields ++ [(key, v)]

/-- Look up a key in a JSON object's field list. -/
def lookupField (fields : List (String × Json)) (key : String) : Option Json :=
  (fields.find? (fun f => f.1 == key)).map (fun f => f.2)

/-- RFC 6902 `add` at a parsed pointer path (object members only, which is all
the webhook's paths address): every intermediate segment must resolve to an
existing container, otherwise the whole patch application fails. -/
def jsonAdd : Json → List String → Json → Option Json
  | Json.obj fields, [key], v => some (Json.obj (setField fields key v))
  | Json.obj fields, key :: rest, v =>
      match lookupField fields key with
      | some child =>
          (jsonAdd child rest v).map (fun c => Json.obj (setField fields key c))
      | none => none
  | _, _, _ => none

/-- Split a character list at every occurrence of the separator. -/
def splitOnSep (sep : Char) : List Char → List (List Char)
  | [] => [[]]
  | c :: rest =>
    let r := splitOnSep sep rest
    if c = sep then [] :: r
    else
      match r with
      | s :: t => (c :: s) :: t
      | [] => [[c]]

/-- Unescape one JSON-pointer segment: `~1` decodes to `/` and `~0` to `~`. -/
def unescapeChars : List Char → List Char
  | '~' :: '1' :: rest => '/' :: unescapeChars rest
  | '~' :: '0' :: rest => '~' :: unescapeChars rest
  | c :: rest => c :: unescapeChars rest
  | [] => []

/-- Modelled from the spec wording only (not from the source): the "tag
component" of an image reference is the part after the last `:`. Used to
compare the spec claim about tag-equality against the code behavior. -/
def imageTagComponent (s : String) : String :=
  String.mk (((splitOnSep ':' s.data).getLast?).getD [])

/-- Parse an RFC 6901 JSON pointer into its unescaped segments (a leading
empty segment from the initial `/` is dropped, as in RFC 6901). -/
def parsePointer (p : String) : List String :=
  match (splitOnSep '/' p.data).map (fun seg => String.mk (unescapeChars seg)) with
  | "" :: segs => segs
  | segs => segs

/-- The serialized metadata of a `MyApp`: `labels` appears only when the field
is `Some` (k8s_openapi derives serialization that skips `None`). -/
def objectMetaJson (m : ObjectMeta) : Json :=
  Json.obj
    ([("name", Json.str m.name), ("namespace", Json.str m.ns),
      ("uid", Json.str m.uid)]
      ++ (match m.labels with
          | some ls => [("labels", Json.obj (ls.map (fun kv => (kv.1, Json.str kv.2))))]
          | none => []))

/-- The serialized admission object, to the depth the webhook's patch paths
reach. -/
def myAppJson (a : MyApp) : Json :=
  Json.obj
    [("apiVersion", Json.str "example.com/v1"), ("kind", Json.str "MyApp"),
     ("metadata", objectMetaJson a.metadata),
     ("spec", Json.obj [("image", Json.str a.spec.image)])]

/-- Apply one patch operation to a document (`add` only; the webhook emits
nothing else). -/
def applyOp (doc : Json) : PatchOperation → Option Json
  | PatchOperation.add path v => jsonAdd doc (parsePointer path) v
  | _ => none

/-! ## Finalizers (main.rs lines 130-178) -/

/-- Rust `const FINALIZER: &str = "myapps.example.com/finalizer"`. -/
def FINALIZER : String := "myapps.example.com/finalizer"

/-- The pure content of `add_finalizer`: the finalizer list the merge patch
stores. When the token is absent it is pushed; when present the object is
returned unchanged (no patch issued). -/
def add_finalizer (fs : List String) : List String :=
  if !(fs.contains FINALIZER) then fs ++ [FINALIZER] else fs

/-- The pure content of `remove_finalizer`: `finalizers.retain(|f| f != FINALIZER)`. -/
def remove_finalizer (fs : List String) : List String :=
  fs.filter (fun f => f != FINALIZER)

/-! ## Child-resource builders (main.rs lines 218-320)

`create_deployment` / `create_service` build the child object and POST it;
the built values are embedded here (the store interaction lives in
`reconcile` below). -/

/-- Owner reference shape built by `create_owner_reference` (main.rs lines
218-227). `MyApp::api_version` for group `example.com`, version `v1` is
`example.com/v1`; kind is `MyApp`. -/
structure OwnerReference where
  apiVersion : String
  kind : String
  name : String
  uid : String
  controller : Option Bool
  blockOwnerDeletion : Option Bool
deriving DecidableEq, Repr

def create_owner_reference (a : MyApp) : OwnerReference :=
  { apiVersion := "example.com/v1"
    kind := "MyApp"
    name := a.metadata.name
    uid := a.metadata.uid
    controller := some true
    blockOwnerDeletion := some true }

/-- Child-resource metadata (the fields the builders set). -/
structure ChildMeta where
  name : String
  ns : String
  labels : List (String × String)
  ownerReferences : List OwnerReference
deriving DecidableEq, Repr

structure EnvVar where
  name : String
  value : Option String
deriving DecidableEq, Repr

structure ContainerObj where
  name : String
  image : Option String
  env : List EnvVar
deriving DecidableEq, Repr

/-- The Deployment value built by `create_deployment` (the fields it sets). -/
structure DeploymentObj where
  metadata : ChildMeta
  replicas : Option Int
  selectorMatchLabels : List (String × String)
  templateLabels : List (String × String)
  containers : List ContainerObj
deriving DecidableEq, Repr

/-- Function `create_deployment` (main.rs lines 229-285), the built object. The Rust
labels are a `BTreeMap` holding `app` and `managed-by`; `"app" < "managed-by"`
so the iteration order is as listed. -/
def create_deployment (a : MyApp) : DeploymentObj :=
  let name := a.metadata.name ++ "-deployment"
  let labels := [("app", a.metadata.name), ("managed-by", "myapp-controller")]
  { metadata :=
      { name := name
        ns := a.metadata.ns
        labels := labels
        ownerReferences := [create_owner_reference a] }
    replicas := some a.spec.replicas
    selectorMatchLabels := labels
    templateLabels := labels
    containers :=
      [{ name := "app"
         image := some a.spec.image
         env := a.spec.envVars.map (fun kv => { name := kv.1, value := some kv.2 }) }] }

structure ServicePortObj where
  port : Int
  targetPort : Option Int
deriving DecidableEq, Repr

/-- The Service value built by `create_service` (the fields it sets). -/
structure ServiceObj where
  metadata : ChildMeta
  selector : List (String × String)
  ports : List ServicePortObj
deriving DecidableEq, Repr

/-- Function `create_service` (main.rs lines 287-320), the built object. Its label map
holds only `app` (no `managed-by` entry is inserted). -/
def create_service (a : MyApp) : ServiceObj :=
  let name := a.metadata.name ++ "-service"
  let labels := [("app", a.metadata.name)]
  { metadata :=
      { name := name
        ns := a.metadata.ns
        labels := labels
        ownerReferences := [create_owner_reference a] }
    selector := labels
    ports := [{ port := 80, targetPort := some 80 }] }

/-! ## Store and reconcile loop (main.rs lines 180-205, 467-585) -/

/-- The slice of cluster state one reconcile invocation touches: the parent
object and its two deterministically named children (`<name>-deployment`,
`<name>-service`), each present or absent. -/
structure Store where
  obj : MyApp
  deployment : Option DeploymentObj
  service : Option ServiceObj
deriving DecidableEq, Repr

/-- Function `cleanup_resources` (main.rs lines 180-205): `get_opt` each child and
delete it only when present — an already-absent child is tolerated. -/
def cleanup_resources (s : Store) : Store :=
  let s1 :=
    match s.deployment with
    | some _ => { s with deployment := none }
    | none => s
  match s1.service with
  | some _ => { s1 with service := none }
  | none => s1

/-- Type `kube::runtime::controller::Action`: either wait for the next watch event
(`await_change`) or revisit after a duration (`requeue`, in seconds here).
Named `ReconcileAction` because Mathlib already declares `Action`. -/
inductive ReconcileAction where
  | await_change
  | requeue (secs : Nat)
deriving DecidableEq, Repr

/-- Rust enum `ReconcileError` (main.rs lines 450-460). -/
inductive ReconcileError where
  | kubeError (msg : String)
  | validationError (msg : String)
  | finalizerError (msg : String)
deriving DecidableEq, Repr

/-- RFC 7386 merge of the status patch `{"status": p}` into the stored
status: the patch serializes every field of `MyAppStatus`, so each stored
field is replaced by the patch's (the `conditions` array is replaced
wholesale — merge patch does not concatenate arrays; a `None`
`observedGeneration` serializes to `null`, which removes the field, i.e.
leaves it `none`). -/
def merge_status_patch (_old : Option MyAppStatus) (p : MyAppStatus) :
    Option MyAppStatus :=
  some
    { state := p.state
      observedGeneration := p.observedGeneration
      conditions := p.conditions
      lastUpdated := p.lastUpdated }

/-- Function `reconcile` (main.rs lines 467-566) on the store slice for the object
being reconciled, with the clock reading passed in as `now`. Returns the
store as mutated so far together with the outcome; an error therefore shows
exactly which mutations had happened before the failure (on the
validation-error path: none). Store calls themselves are modelled as
succeeding; the claims under proof are about successful store interaction. -/
def reconcile (now : String) (s : Store) : Store × Except ReconcileError ReconcileAction :=
  let a := s.obj
  if a.metadata.deletionTimestamp.isSome then
    if a.metadata.finalizers.contains FINALIZER then
      let s1 := cleanup_resources s
      let s2 :=
        { s1 with
            obj :=
              { s1.obj with
                  metadata :=
                    { s1.obj.metadata with
                        finalizers := remove_finalizer s1.obj.metadata.finalizers } } }
      (s2, Except.ok ReconcileAction.await_change)
    else
      (s, Except.ok ReconcileAction.await_change)
  else if !(a.metadata.finalizers.contains FINALIZER) then
    ({ s with
        obj :=
          { s.obj with
              metadata :=
                { s.obj.metadata with
                    finalizers := add_finalizer s.obj.metadata.finalizers } } },
     Except.ok (ReconcileAction.requeue 1))
  else
    match MyApp.validate a with
    | Except.error e => (s, Except.error (ReconcileError.validationError e))
    | Except.ok _ =>
      let s1 :=
        match s.deployment with
        | some _ => s
        | none => { s with deployment := some (create_deployment a) }
      let s2 :=
        match s1.service with
        | some _ => s1
        | none => { s1 with service := some (create_service a) }
      let newStatus : MyAppStatus :=
        { state := "Running"
          observedGeneration := a.metadata.generation
          conditions :=
            [Condition.ready true "ReconcileSuccess"
              "Resource reconciled successfully" now]
          lastUpdated := some now }
      let s3 :=
        { s2 with obj := { s2.obj with status := merge_status_patch s2.obj.status newStatus } }
      (s3, Except.ok (ReconcileAction.requeue 300))

/-- The error-kind string `error_policy` records (main.rs lines 576-580). -/
def error_policy_error_type : ReconcileError → String
  | ReconcileError.kubeError _ => "kube_error"
  | ReconcileError.validationError _ => "validation_error"
  | ReconcileError.finalizerError _ => "finalizer_error"

/-- Function `error_policy` (main.rs lines 568-585): uniform fixed-delay
requeue. -/
def error_policy (_e : ReconcileError) : ReconcileAction :=
  ReconcileAction.requeue 60

/-! ## Concrete objects used by witnesses and counterexamples -/

/-- Spec of the spec.md end-to-end demo object. -/
def demoSpec : MyAppSpec :=
  { replicas := 3, image := "nginx:1.25", envVars := [], resources := none,
    scheduling := none }

/-- Metadata of the demo object, with the controller finalizer present. -/
def demoMeta : ObjectMeta :=
  { name := "demo", ns := "ns1", uid := "uid-1", generation := some 1,
    deletionTimestamp := none, finalizers := [FINALIZER], labels := some [] }

/-- The demo object: active (no deletionTimestamp), finalizer present. -/
def demoApp : MyApp := { metadata := demoMeta, spec := demoSpec, status := none }

/-- Store for the demo object with no children yet. -/
def activeStore : Store := { obj := demoApp, deployment := none, service := none }

/-- The demo object marked terminating. -/
def termApp : MyApp :=
  { demoApp with
      metadata := { demoMeta with deletionTimestamp := some "2026-01-01T00:00:00Z" } }

/-- Terminating store whose children still exist. -/
def termStore : Store :=
  { obj := termApp, deployment := some (create_deployment demoApp),
    service := some (create_service demoApp) }

/-! ## Helper lemmas on the reconcile paths (shared by several claims) -/

/-- Cleanup always ends with both children absent and the parent untouched. -/
theorem cleanup_resources_eq (s : Store) :
    cleanup_resources s = { s with deployment := none, service := none } := by
  rcases s with ⟨o, d, sv⟩
  cases d <;> cases sv <;> rfl

/-- The controller token is never a member after `remove_finalizer`. -/
theorem remove_finalizer_not_mem (fs : List String) :
    FINALIZER ∉ remove_finalizer fs := by
  intro h
  have hp := List.of_mem_filter h
  simp at hp

/-- Every other token survives `remove_finalizer`. -/
theorem remove_finalizer_keeps_others (fs : List String) (f : String)
    (hf : f ≠ FINALIZER) (hmem : f ∈ fs) : f ∈ remove_finalizer fs := by
  refine List.mem_filter.mpr ⟨hmem, ?_⟩
  simp [hf]

/-- Terminating path with the finalizer present: delete children, drop the
token, leave spec/status alone, await the next event. -/
theorem reconcile_term_present (now : String) (s : Store)
    (hdel : s.obj.metadata.deletionTimestamp.isSome = true)
    (hfin : s.obj.metadata.finalizers.contains FINALIZER = true) :
    reconcile now s =
      ({ obj := { s.obj with metadata := { s.obj.metadata with
            finalizers := remove_finalizer s.obj.metadata.finalizers } },
         deployment := none, service := none },
       Except.ok ReconcileAction.await_change) := by
  have hmem : FINALIZER ∈ s.obj.metadata.finalizers := by simpa using hfin
  simp [reconcile, hdel, hmem, cleanup_resources_eq]

/-- Terminating path with the finalizer absent: strict no-op. -/
theorem reconcile_term_absent (now : String) (s : Store)
    (hdel : s.obj.metadata.deletionTimestamp.isSome = true)
    (hfin : s.obj.metadata.finalizers.contains FINALIZER = false) :
    reconcile now s = (s, Except.ok ReconcileAction.await_change) := by
  have hmem : FINALIZER ∉ s.obj.metadata.finalizers := by simpa using hfin
  simp [reconcile, hdel, hmem]

/-- The status literal `new_status` built on the active path (main.rs lines
541-548). -/
def running_status (now : String) (a : MyApp) : MyAppStatus :=
  { state := "Running"
    observedGeneration := a.metadata.generation
    conditions :=
      [Condition.ready true "ReconcileSuccess" "Resource reconciled successfully" now]
    lastUpdated := some now }

/-- Active path: children created only when missing, status merge-patched to
the fresh `running_status`, requeue after 300 seconds. -/
theorem reconcile_active (now : String) (s : Store)
    (hdel : s.obj.metadata.deletionTimestamp = none)
    (hfin : s.obj.metadata.finalizers.contains FINALIZER = true)
    (hval : MyApp.validate s.obj = Except.ok ()) :
    reconcile now s =
      ({ obj := { s.obj with status := some (running_status now s.obj) },
         deployment := some (s.deployment.getD (create_deployment s.obj)),
         service := some (s.service.getD (create_service s.obj)) },
       Except.ok (ReconcileAction.requeue 300)) := by
  have hmem : FINALIZER ∈ s.obj.metadata.finalizers := by simpa using hfin
  cases hd : s.deployment <;> cases hs : s.service <;>
    simp [reconcile, hdel, hmem, hval, hd, hs, merge_status_patch, running_status]

/-- Validation-error path: the store is returned untouched together with the
`ValidationError`. -/
theorem reconcile_validation_error (now : String) (s : Store) (e : String)
    (hdel : s.obj.metadata.deletionTimestamp = none)
    (hfin : s.obj.metadata.finalizers.contains FINALIZER = true)
    (hval : MyApp.validate s.obj = Except.error e) :
    reconcile now s = (s, Except.error (ReconcileError.validationError e)) := by
  have hmem : FINALIZER ∈ s.obj.metadata.finalizers := by simpa using hfin
  simp [reconcile, hdel, hmem, hval]

/-- The demo object with image `app:latest`. -/
def appLatest : MyApp :=
  { demoApp with spec := { demoSpec with image := "app:latest" } }

/-- The demo object with image `app:1.0.0`. -/
def appV100 : MyApp :=
  { demoApp with spec := { demoSpec with image := "app:1.0.0" } }

/-- An object whose image merely contains `latest` while its tag component is
`1.0.0`. -/
def latestNameApp : MyApp :=
  { demoApp with spec := { demoSpec with image := "latest-app:1.0.0" } }

/-- C9: local validation (`MyApp::validate`) accepts exactly when the replica
count lies in [1,100] and the image is non-empty, and each rejection carries
its specific reason string (replicas=0/101 rejected, 1/100 accepted, image=""
rejected — instances of the universally quantified parts below). -/
theorem c9_validate_characterization :
    (∀ a : MyApp, a.validate = Except.ok () ↔
      (1 ≤ a.spec.replicas ∧ a.spec.replicas ≤ 100 ∧ a.spec.image ≠ "")) ∧
    (∀ a : MyApp, (a.spec.replicas < 1 ∨ a.spec.replicas > 100) →
      a.validate = Except.error "replicas must be between 1 and 100") ∧
    (∀ a : MyApp, 1 ≤ a.spec.replicas → a.spec.replicas ≤ 100 →
      a.spec.image = "" → a.validate = Except.error "image cannot be empty") := by
  refine ⟨fun a => ?_, fun a h => ?_, fun a h1 h2 h3 => ?_⟩
  · unfold MyApp.validate
    split_ifs with hr hi
    · refine iff_of_false (fun h => ?_) (fun h => ?_)
      · cases h
      · rcases h with ⟨ha, hb, _⟩; omega
    · refine iff_of_false (fun h => ?_) (fun h => ?_)
      · cases h
      · rcases h with ⟨_, _, hc⟩; exact absurd hi hc
    · exact ⟨fun _ => ⟨by omega, by omega, hi⟩, fun _ => rfl⟩
  · unfold MyApp.validate
    rw [if_pos h]
  · unfold MyApp.validate
    rw [if_neg (by omega), if_pos h3]

/-- C9 witness: the spec's concrete cases, each obtained from
`c9_validate_characterization`. -/
theorem c9_witness :
    ({ demoApp with spec := { demoSpec with replicas := 0 } } : MyApp).validate =
      Except.error "replicas must be between 1 and 100" ∧
    ({ demoApp with spec := { demoSpec with replicas := 101 } } : MyApp).validate =
      Except.error "replicas must be between 1 and 100" ∧
    ({ demoApp with spec := { demoSpec with image := "" } } : MyApp).validate =
      Except.error "image cannot be empty" ∧
    ({ demoApp with spec := { demoSpec with replicas := 1 } } : MyApp).validate =
      Except.ok () ∧
    ({ demoApp with spec := { demoSpec with replicas := 100 } } : MyApp).validate =
      Except.ok () ∧
    appV100.validate = Except.ok () :=
  ⟨c9_validate_characterization.2.1 _ (by decide),
   c9_validate_characterization.2.1 _ (by decide),
   c9_validate_characterization.2.2 _ (by decide) (by decide) rfl,
   (c9_validate_characterization.1 _).mpr ⟨by decide, by decide, by decide⟩,
   (c9_validate_characterization.1 _).mpr ⟨by decide, by decide, by decide⟩,
   (c9_validate_characterization.1 _).mpr ⟨by decide, by decide, by decide⟩⟩

/-- C1 counterexample: `latest-app:1.0.0` passes the basic checks and its tag
component is `1.0.0`, not `latest`, yet the webhook rejects it (the code
tests `image.contains("latest")` on the whole string) — so "rejects exactly
when the tag component equals `latest`" is false on the code. -/
theorem c1_counterexample :
    MyApp.validate latestNameApp = Except.ok () ∧
    imageTagComponent latestNameApp.spec.image ≠ "latest" ∧
    validate_webhook latestNameApp =
      AdmissionVerdict.denied "Image tag \x27latest\x27 is not allowed" := by
  refine ⟨rfl, ?_, rfl⟩
  decide

/-- C1 (amended): for every admission object that passes the basic checks the
webhook rejects exactly when the image string contains the substring
`latest` (with the specific reason string); `app:latest` is rejected and
`app:1.0.0` accepted, as the claim's examples say. -/
theorem c1_webhook_latest_policy :
    (∀ a : MyApp, a.validate = Except.ok () →
      ((validate_webhook a = AdmissionVerdict.allowed ↔
          strContains a.spec.image "latest" = false) ∧
       (strContains a.spec.image "latest" = true →
          validate_webhook a =
            AdmissionVerdict.denied "Image tag \x27latest\x27 is not allowed"))) ∧
    validate_webhook appLatest =
      AdmissionVerdict.denied "Image tag \x27latest\x27 is not allowed" ∧
    validate_webhook appV100 = AdmissionVerdict.allowed := by
  refine ⟨fun a h => ?_, rfl, rfl⟩
  unfold validate_webhook
  rw [h]
  cases hc : strContains a.spec.image "latest" <;> simp [hc]

/-- C1 witness: `c1_webhook_latest_policy` applied to the accepted demo
object. -/
theorem c1_witness :
    MyApp.validate demoApp = Except.ok () ∧
    (validate_webhook demoApp = AdmissionVerdict.allowed ↔
      strContains demoApp.spec.image "latest" = false) :=
  ⟨rfl, ((c1_webhook_latest_policy.1 demoApp rfl).1)⟩

/-- C4 counterexample: the Service child built for the demo object carries no
`managed-by` label (its label map holds only `app`), so "every child carries
the label set (app, managed-by)" is false on the code; the Deployment child
does carry it. -/
theorem c4_counterexample :
    (create_service demoApp).metadata.labels.lookup "managed-by" = none ∧
    ("managed-by", "myapp-controller") ∉ (create_service demoApp).metadata.labels ∧
    (create_deployment demoApp).metadata.labels.lookup "managed-by" =
      some "myapp-controller" := by
  refine ⟨rfl, ?_, rfl⟩
  decide

/-- C4 (amended): every child carries the `app: name` label and an embedded
owner reference with the parent's name and uid, controller=true and
blockOwnerDeletion=true; the Deployment additionally carries
`managed-by: myapp-controller`, while the Service's label set is only
`app: name`. -/
theorem c4_child_labels_owner_refs (a : MyApp) :
    (create_deployment a).metadata.labels =
      [("app", a.metadata.name), ("managed-by", "myapp-controller")] ∧
    (create_service a).metadata.labels = [("app", a.metadata.name)] ∧
    (create_deployment a).metadata.ownerReferences = [create_owner_reference a] ∧
    (create_service a).metadata.ownerReferences = [create_owner_reference a] ∧
    (create_owner_reference a).name = a.metadata.name ∧
    (create_owner_reference a).uid = a.metadata.uid ∧
    (create_owner_reference a).controller = some true ∧
    (create_owner_reference a).blockOwnerDeletion = some true :=
  ⟨rfl, rfl, rfl, rfl, rfl, rfl, rfl, rfl⟩

/-- C8: the mutating webhook's patch list consists only of `add` operations,
always includes the managed-by label op, includes the default-resources op
(cpu=100m, memory=128Mi) exactly when the resources field is absent, and
contains nothing else — in particular no op that removes or overwrites any
other user-set value (`add` at `/spec/resources` fires only when that field
is unset; the managed-by label is the one force-set path). -/
theorem c8_mutate_patch_shape :
    (∀ a : MyApp, ∀ op ∈ mutate_webhook a, op.isAdd = true) ∧
    (∀ a : MyApp, managedByLabelOp ∈ mutate_webhook a) ∧
    (∀ a : MyApp, defaultResourcesOp ∈ mutate_webhook a ↔ a.spec.resources = none) ∧
    (∀ a : MyApp, ∀ op ∈ mutate_webhook a,
      op = managedByLabelOp ∨ (op = defaultResourcesOp ∧ a.spec.resources = none)) := by
  have hne : defaultResourcesOp ≠ managedByLabelOp := by
    intro h
    injection h with h1 h2
    exact absurd h1 (by decide)
  refine ⟨fun a op hop => ?_, fun a => ?_, fun a => ?_, fun a op hop => ?_⟩
  · cases hres : a.spec.resources with
    | none =>
        simp [mutate_webhook, hres] at hop
        rcases hop with h | h <;> subst h <;> rfl
    | some r =>
        simp [mutate_webhook, hres] at hop
        subst hop; rfl
  · cases hres : a.spec.resources <;> simp [mutate_webhook, hres]
  · cases hres : a.spec.resources <;> simp [mutate_webhook, hres, hne]
  · cases hres : a.spec.resources with
    | none =>
        simp [mutate_webhook, hres] at hop
        rcases hop with h | h
        · exact Or.inl h
        · exact Or.inr ⟨h, rfl⟩
    | some r =>
        simp [mutate_webhook, hres] at hop
        exact Or.inl hop

/-- C8 witness: `c8_mutate_patch_shape` at the demo object (resources
absent). -/
theorem c8_witness :
    managedByLabelOp.isAdd = true ∧
    managedByLabelOp ∈ mutate_webhook demoApp ∧
    (defaultResourcesOp ∈ mutate_webhook demoApp ↔ demoApp.spec.resources = none) :=
  ⟨c8_mutate_patch_shape.1 demoApp managedByLabelOp (by simp [mutate_webhook, demoApp, demoSpec]),
   c8_mutate_patch_shape.2.1 demoApp,
   c8_mutate_patch_shape.2.2.1 demoApp⟩

/-- C2: with deletionTimestamp set and the finalizer present, one successful
reconcile ends with both children deleted (already-absent children tolerated:
the equation holds whatever the initial children were), the finalizer token
gone from the stored list, spec and status untouched, and `await_change`
returned; with the finalizer absent, reconcile is a no-op returning
`await_change`. -/
theorem c2_terminating_reconcile (now : String) (s : Store)
    (hdel : s.obj.metadata.deletionTimestamp.isSome = true) :
    (s.obj.metadata.finalizers.contains FINALIZER = true →
      reconcile now s =
        ({ obj := { s.obj with metadata := { s.obj.metadata with
              finalizers := remove_finalizer s.obj.metadata.finalizers } },
           deployment := none, service := none },
         Except.ok ReconcileAction.await_change) ∧
      FINALIZER ∉ remove_finalizer s.obj.metadata.finalizers) ∧
    (s.obj.metadata.finalizers.contains FINALIZER = false →
      reconcile now s = (s, Except.ok ReconcileAction.await_change)) :=
  ⟨fun hfin =>
    ⟨reconcile_term_present now s hdel hfin,
     remove_finalizer_not_mem s.obj.metadata.finalizers⟩,
   fun hfin => reconcile_term_absent now s hdel hfin⟩

/-- C2 witness: `c2_terminating_reconcile` at the terminating demo store
(children present, finalizer present). -/
theorem c2_witness :
    reconcile "t1" termStore =
      ({ obj := { termStore.obj with metadata := { termStore.obj.metadata with
            finalizers := remove_finalizer termStore.obj.metadata.finalizers } },
         deployment := none, service := none },
       Except.ok ReconcileAction.await_change) ∧
    FINALIZER ∉ remove_finalizer termStore.obj.metadata.finalizers :=
  (c2_terminating_reconcile "t1" termStore rfl).1 rfl

/-- C3: on the Active path (no deletionTimestamp, finalizer present, spec
valid) a successful reconcile creates exactly the missing children — an
existing child is kept as-is, a missing one becomes the freshly built object
(check-then-create) — patches only the status subresource to the fresh
`running_status` (state=Running, observedGeneration=generation, one fresh
Ready=True condition stamped `now`), leaves metadata and spec untouched, and
returns requeue-after 300 seconds. -/
theorem c3_active_reconcile (now : String) (s : Store)
    (hdel : s.obj.metadata.deletionTimestamp = none)
    (hfin : s.obj.metadata.finalizers.contains FINALIZER = true)
    (hval : MyApp.validate s.obj = Except.ok ()) :
    reconcile now s =
      ({ obj := { s.obj with status := some (running_status now s.obj) },
         deployment := some (s.deployment.getD (create_deployment s.obj)),
         service := some (s.service.getD (create_service s.obj)) },
       Except.ok (ReconcileAction.requeue 300)) ∧
    (running_status now s.obj).state = "Running" ∧
    (running_status now s.obj).observedGeneration = s.obj.metadata.generation ∧
    (running_status now s.obj).conditions =
      [{ type := "Ready", status := "True", reason := "ReconcileSuccess",
         message := "Resource reconciled successfully", lastTransitionTime := now }] :=
  ⟨reconcile_active now s hdel hfin hval, rfl, rfl, rfl⟩

/-- C3 witness: `c3_active_reconcile` at the active demo store with no
children yet. -/
theorem c3_witness :
    reconcile "t1" activeStore =
      ({ obj := { activeStore.obj with status := some (running_status "t1" activeStore.obj) },
         deployment := some (activeStore.deployment.getD (create_deployment activeStore.obj)),
         service := some (activeStore.service.getD (create_service activeStore.obj)) },
       Except.ok (ReconcileAction.requeue 300)) ∧
    (running_status "t1" activeStore.obj).state = "Running" ∧
    (running_status "t1" activeStore.obj).observedGeneration =
      activeStore.obj.metadata.generation ∧
    (running_status "t1" activeStore.obj).conditions =
      [{ type := "Ready", status := "True", reason := "ReconcileSuccess",
         message := "Resource reconciled successfully", lastTransitionTime := "t1" }] :=
  c3_active_reconcile "t1" activeStore rfl rfl rfl

/-- Store whose object already carries a status with one condition and whose
children exist: the state after one successful Active reconcile. -/
def c5Store : Store :=
  { obj := { demoApp with status := some (running_status "t0" demoApp) },
    deployment := some (create_deployment demoApp),
    service := some (create_service demoApp) }

/-- C5 counterexample: reconciling again an object whose stored condition list
already has one entry leaves the list at exactly one entry — the status write
is a merge patch whose `conditions` array replaces the stored array wholesale
(RFC 7386), so repeated reconciles do NOT grow the list by one per pass. -/
theorem c5_counterexample :
    (c5Store.obj.status.map fun st => st.conditions.length) = some 1 ∧
    (((reconcile "t1" c5Store).1).obj.status.map fun st => st.conditions.length) =
      some 1 ∧
    ¬ ((((reconcile "t1" c5Store).1).obj.status.map fun st => st.conditions.length) =
        some 2) := by
  refine ⟨rfl, rfl, ?_⟩
  decide

/-- C5 (amended): every successful Active-path reconcile stores, via the
wholesale-replacing merge patch, a status whose condition list is exactly the
one fresh Ready condition — the stored list stays at one entry per pass
instead of growing. -/
theorem c5_conditions_replaced_not_grown (now : String) (s : Store)
    (hdel : s.obj.metadata.deletionTimestamp = none)
    (hfin : s.obj.metadata.finalizers.contains FINALIZER = true)
    (hval : MyApp.validate s.obj = Except.ok ()) :
    ((reconcile now s).1).obj.status = some (running_status now s.obj) ∧
    (running_status now s.obj).conditions =
      [Condition.ready true "ReconcileSuccess" "Resource reconciled successfully" now] ∧
    (running_status now s.obj).conditions.length = 1 := by
  rw [reconcile_active now s hdel hfin hval]
  exact ⟨rfl, rfl, rfl⟩

/-- C5 witness: `c5_conditions_replaced_not_grown` at the once-reconciled
store `c5Store`. -/
theorem c5_witness :
    ((reconcile "t1" c5Store).1).obj.status = some (running_status "t1" c5Store.obj) ∧
    (running_status "t1" c5Store.obj).conditions =
      [Condition.ready true "ReconcileSuccess" "Resource reconciled successfully" "t1"] ∧
    (running_status "t1" c5Store.obj).conditions.length = 1 :=
  c5_conditions_replaced_not_grown "t1" c5Store rfl rfl rfl

/-- The demo object with an out-of-range replica count (0). -/
def invalidApp : MyApp :=
  { demoApp with spec := { demoSpec with replicas := 0 } }

/-- Store for the invalid object on the Active path. -/
def invalidStore : Store := { obj := invalidApp, deployment := none, service := none }

/-- C6: on the Active path a spec that fails local validation makes reconcile
return a `ValidationError` with the store exactly as it was — finalizer kept,
no child created or deleted, no status write — and the error maps to the
`validation_error` counter key and the fixed 60-second error-policy requeue. -/
theorem c6_validation_error_no_mutation (now : String) (s : Store) (e : String)
    (hdel : s.obj.metadata.deletionTimestamp = none)
    (hfin : s.obj.metadata.finalizers.contains FINALIZER = true)
    (hval : MyApp.validate s.obj = Except.error e) :
    reconcile now s = (s, Except.error (ReconcileError.validationError e)) ∧
    error_policy_error_type (ReconcileError.validationError e) = "validation_error" ∧
    error_policy (ReconcileError.validationError e) = ReconcileAction.requeue 60 :=
  ⟨reconcile_validation_error now s e hdel hfin hval, rfl, rfl⟩

/-- C6 witness: `c6_validation_error_no_mutation` at the replicas=0 store. -/
theorem c6_witness :
    reconcile "t1" invalidStore =
      (invalidStore,
       Except.error (ReconcileError.validationError
         "replicas must be between 1 and 100")) ∧
    error_policy_error_type
      (ReconcileError.validationError "replicas must be between 1 and 100") =
      "validation_error" :=
  ⟨(c6_validation_error_no_mutation "t1" invalidStore
      "replicas must be between 1 and 100" rfl rfl rfl).1,
   rfl⟩

/-- C7: finalizer insertion is idempotent (adding when the token is already
present leaves the list unchanged; add twice = add once; starting from a list
holding the token at most once, the result holds it exactly once), and
reconciling twice in a row on an unchanged Active object creates no
additional child resources and no duplicate finalizer entries. -/
theorem c7_idempotence :
    (∀ fs : List String, fs.contains FINALIZER = true → add_finalizer fs = fs) ∧
    (∀ fs : List String, add_finalizer (add_finalizer fs) = add_finalizer fs) ∧
    (∀ fs : List String, fs.count FINALIZER ≤ 1 →
      (add_finalizer fs).count FINALIZER = 1) ∧
    (∀ (n1 n2 : String) (s : Store),
      s.obj.metadata.deletionTimestamp = none →
      s.obj.metadata.finalizers.contains FINALIZER = true →
      MyApp.validate s.obj = Except.ok () →
      ((reconcile n2 (reconcile n1 s).1).1.deployment = (reconcile n1 s).1.deployment ∧
       (reconcile n2 (reconcile n1 s).1).1.service = (reconcile n1 s).1.service ∧
       (reconcile n2 (reconcile n1 s).1).1.obj.metadata.finalizers =
         s.obj.metadata.finalizers)) := by
  refine ⟨fun fs h => ?_, fun fs => ?_, fun fs h => ?_, fun n1 n2 s hdel hfin hval => ?_⟩
  · have hm : FINALIZER ∈ fs := by simpa using h
    simp [add_finalizer, hm]
  · by_cases hm : FINALIZER ∈ fs
    · simp [add_finalizer, hm]
    · simp [add_finalizer, hm]
  · by_cases hm : FINALIZER ∈ fs
    · have hpos : 0 < fs.count FINALIZER := List.count_pos_iff.mpr hm
      simp [add_finalizer, hm]
      omega
    · have hz : fs.count FINALIZER = 0 := List.count_eq_zero.mpr hm
      simp [add_finalizer, hm, List.count_append, hz]
  · have h1 := reconcile_active n1 s hdel hfin hval
    have h2 := reconcile_active n2
      { obj := { s.obj with status := some (running_status n1 s.obj) },
        deployment := some (s.deployment.getD (create_deployment s.obj)),
        service := some (s.service.getD (create_service s.obj)) }
      hdel hfin hval
    rw [h1]
    dsimp only
    rw [h2]
    simp

/-- C7 witness: `c7_idempotence` at concrete finalizer lists and at the active
demo store. -/
theorem c7_witness :
    add_finalizer [FINALIZER] = [FINALIZER] ∧
    add_finalizer (add_finalizer []) = add_finalizer ([] : List String) ∧
    (add_finalizer ([] : List String)).count FINALIZER = 1 ∧
    ((reconcile "t2" (reconcile "t1" activeStore).1).1.deployment =
       (reconcile "t1" activeStore).1.deployment ∧
     (reconcile "t2" (reconcile "t1" activeStore).1).1.service =
       (reconcile "t1" activeStore).1.service ∧
     (reconcile "t2" (reconcile "t1" activeStore).1).1.obj.metadata.finalizers =
       activeStore.obj.metadata.finalizers) :=
  ⟨c7_idempotence.1 [FINALIZER] rfl,
   c7_idempotence.2.1 [],
   c7_idempotence.2.2.1 [] (by decide),
   c7_idempotence.2.2.2 "t1" "t2" activeStore rfl rfl rfl⟩

/-- An admission object whose metadata carries no labels map at all. -/
def bareApp : MyApp :=
  { demoApp with metadata := { demoMeta with labels := none } }

/-- C10: the mutating webhook's patch always contains the add at
`/metadata/labels/app.kubernetes.io~1managed-by`; applying that RFC 6902 add
to the serialized object succeeds exactly when `metadata.labels` already
exists, and in particular fails (no label inserted) when the object carries
no labels map — the parent location `/metadata/labels` is then absent. -/
theorem c10_label_add_requires_labels (a : MyApp) :
    managedByLabelOp ∈ mutate_webhook a ∧
    ((applyOp (myAppJson a) managedByLabelOp).isSome ↔ a.metadata.labels.isSome) ∧
    (a.metadata.labels = none → applyOp (myAppJson a) managedByLabelOp = none) := by
  refine ⟨?_, ?_, ?_⟩
  · cases hres : a.spec.resources <;> simp [mutate_webhook, hres]
  · rcases a with ⟨⟨n, ns, uid, gen, dts, fins, labels⟩, sp, st⟩
    cases labels <;> exact Iff.rfl
  · intro h
    rcases a with ⟨⟨n, ns, uid, gen, dts, fins, labels⟩, sp, st⟩
    cases labels with
    | none => rfl
    | some ls => cases h

/-- C10 witness: `c10_label_add_requires_labels` at the label-less object. -/
theorem c10_witness :
    managedByLabelOp ∈ mutate_webhook bareApp ∧
    applyOp (myAppJson bareApp) managedByLabelOp = none :=
  ⟨(c10_label_add_requires_labels bareApp).1,
   (c10_label_add_requires_labels bareApp).2.2 rfl⟩
